import Mathlib

/-!
Verification of the Part-12 simple Pascal interpreter
(`simple_pascal_interpreter_12.py`): a four-stage pipeline of
lexer, recursive-descent Pascal-subset reader, symbol-table semantic
pass, and tree-walking evaluator.  Each Python class/method is embedded
as an executable Lean definition; machine behaviour such as Python's
`IndexError` on out-of-range string indexing is modelled with `Except`.
-/

set_option maxRecDepth 4096

namespace PascalInterp

/-! ### Tokens (Lexer output vocabulary, mirroring the Python token types) -/

inductive Tok where
  | PROGRAM | PROCEDURE | VAR | INTEGER | REAL
  | LPAREN | RPAREN | PLUS | MINUS | MUL | FLOAT_DIV | INTEGER_DIV
  | ASSIGN | BEGIN | END | SEMI | COLON | COMMA | DOT | EOF
  | ID (s : String)
  | INTEGER_CONST (i : Int)
  | REAL_CONST (q : ℚ)
deriving DecidableEq

/-- Errors the Lexer can raise.  `indexOutOfRange` models Python's
`IndexError` (raised by `self.text[self.pos]` when `pos` is past the end);
it is what `Lexer.__init__` raises on empty input and what
`skip_comment` raises when a comment is never closed.  Following the
spec's abstract error kinds, the unterminated-comment crash is named
`unterminatedComment`. -/
inductive LexErr where
  | invalidCharacter (c : Char)
  | unterminatedComment
  | indexOutOfRange
  | outOfFuel
deriving DecidableEq

/-- `RESERVED_KEYWORDS` from the source: uppercased word to keyword token. -/
def RESERVED_KEYWORDS : List (String × Tok) :=
  [("PROGRAM", .PROGRAM), ("VAR", .VAR), ("DIV", .INTEGER_DIV),
   ("INTEGER", .INTEGER), ("REAL", .REAL), ("BEGIN", .BEGIN),
   ("END", .END), ("PROCEDURE", .PROCEDURE)]

/-- `Lexer.skip_comment`: advance until the closing brace, consuming it.
Running off the end of the text is the `IndexError` crash in the source,
reported here as `unterminatedComment`. -/
def skip_comment : List Char → Except LexErr (List Char)
  | [] => .error .unterminatedComment
  | c :: rest => if c = '\x7d' then .ok rest else skip_comment rest

/-- Digit run to a natural number (`int(result)` on an all-digit string). -/
def digitsToNat (ds : List Char) : Nat :=
  ds.foldl (fun a c => a * 10 + (c.toNat - 48)) 0

/-- `Lexer.number`: maximal digit run, optionally a dot and a second digit
run, producing `INTEGER_CONST` or `REAL_CONST`.  Python floats are modelled
as exact rationals. -/
def lexNumber (cs : List Char) : Tok × List Char :=
  let ds := cs.takeWhile (·.isDigit)
  let rest := cs.dropWhile (·.isDigit)
  match rest with
  | '.' :: rest2 =>
      let fs := rest2.takeWhile (·.isDigit)
      let rest3 := rest2.dropWhile (·.isDigit)
      (.REAL_CONST ((digitsToNat ds : ℚ) + (digitsToNat fs : ℚ) / ((10 : ℚ) ^ fs.length)),
       rest3)
  | _ => (.INTEGER_CONST (digitsToNat ds), rest)

/-- `Lexer._id`: maximal alphanumeric/underscore run, uppercased, classified
through `RESERVED_KEYWORDS`. -/
def lexId (cs : List Char) : Tok × List Char :=
  let run := cs.takeWhile (fun c => c.isAlphanum || c = '_')
  let rest := cs.dropWhile (fun c => c.isAlphanum || c = '_')
  let name := String.mk (run.map Char.toUpper)
  match RESERVED_KEYWORDS.lookup name with
  | some t => (t, rest)
  | none => (.ID name, rest)

/-- `Lexer.get_next_token`, over the remaining characters.  The fuel bounds
the whitespace/comment skipping loop; any value larger than the text length
behaves identically to the Python `while` loop. -/
def get_next_token : Nat → List Char → Except LexErr (Tok × List Char)
  | 0, _ => .error .outOfFuel
  | fuel + 1, cs =>
    match cs with
    | [] => .ok (.EOF, [])
    | c :: rest =>
      if c.isWhitespace then
        get_next_token fuel (cs.dropWhile (·.isWhitespace))
      else if c = '\x7b' then
        match skip_comment rest with
        | .error e => .error e
        | .ok rest2 => get_next_token fuel rest2
      else if c.isAlpha || c = '_' then .ok (lexId cs)
      else if c.isDigit then .ok (lexNumber cs)
      else if c = ':' then
        match rest with
        | '=' :: rest2 => .ok (.ASSIGN, rest2)
        | _ => .ok (.COLON, rest)
      else if c = ';' then .ok (.SEMI, rest)
      else if c = ',' then .ok (.COMMA, rest)
      else if c = '+' then .ok (.PLUS, rest)
      else if c = '-' then .ok (.MINUS, rest)
      else if c = '*' then .ok (.MUL, rest)
      else if c = '/' then .ok (.FLOAT_DIV, rest)
      else if c = '(' then .ok (.LPAREN, rest)
      else if c = ')' then .ok (.RPAREN, rest)
      else if c = '.' then .ok (.DOT, rest)
      else .error (.invalidCharacter c)

/-- `Lexer.__init__`: stores the text and eagerly reads `text[0]`, which
raises `IndexError` on the empty string. -/
def lexerInit (cs : List Char) : Except LexErr (List Char) :=
  match cs with
  | [] => .error .indexOutOfRange
  | _ => .ok cs

/-- Drain the lexer into the full token sequence, ending with the single
`EOF` token. -/
def tokenizeLoop : Nat → List Char → Except LexErr (List Tok)
  | 0, _ => .error .outOfFuel
  | fuel + 1, cs =>
    match get_next_token (cs.length + 1) cs with
    | .error e => .error e
    | .ok (.EOF, _) => .ok [.EOF]
    | .ok (t, rest) => (tokenizeLoop fuel rest).map (t :: ·)

/-- Construct a `Lexer` on `text` and pull every token. -/
def tokenize (text : String) : Except LexErr (List Tok) := do
  let cs ← lexerInit text.toList
  tokenizeLoop (cs.length + 1) cs

/-! ### AST (the node classes built by the reader) -/

/-- Runtime numeric values: Python `int` or `float` (exact-rational model). -/
inductive Value where
  | int (i : Int)
  | real (q : ℚ)
deriving DecidableEq

/-- Binary operators a `BinOp` node can carry (the five the grammar admits). -/
inductive Op where
  | plus | minus | mul | integerDiv | floatDiv
deriving DecidableEq

/-- Unary operators a `UnaryOp` node can carry. -/
inductive UOp where
  | plus | minus
deriving DecidableEq

/-- Expression nodes: `BinOp`, `UnaryOp`, `Num`, `Var`. -/
inductive Expr where
  | binOp (left : Expr) (op : Op) (right : Expr)
  | unaryOp (op : UOp) (e : Expr)
  | num (v : Value)
  | var (name : String)

/-- Statement nodes: `Compound`, `Assign` (target is the `Var` node's
uppercased name), `NoOp`. -/
inductive Stmt where
  | compound (children : List Stmt)
  | assign (target : String) (value : Expr)
  | noOp

mutual

/-- Declaration nodes: `VarDecl` (variable name and type name, the `.value`
fields of its `Var`/`Type` children) and `ProcedureDecl`. -/
inductive Decl where
  | varDecl (varName : String) (typeName : String)
  | procedureDecl (name : String) (body : Block)

/-- `Block`: declarations followed by a compound statement. -/
inductive Block where
  | mk (declarations : List Decl) (compound : Stmt)

end

/-- Field accessor for `Block.declarations`. -/
def Block.declarations : Block → List Decl
  | .mk ds _ => ds

/-- Field accessor for `Block.compound`. -/
def Block.compound : Block → Stmt
  | .mk _ s => s

/-- `Program` node: program name and its block. -/
structure Program where
  name : String
  block : Block

/-! ### Reader (`Parser` class): recursive descent over the token stream.

The Python object holds a one-token lookahead pulled from the lexer; here
each routine takes the list of not-yet-consumed tokens (head = lookahead)
and returns the built node with the remaining tokens.  The `Nat` fuel
bounds recursion depth; every routine consumes fuel on entry, so any fuel
exceeding the recursion depth reproduces the Python behaviour exactly. -/

/-- Errors of the token-consuming stage: `invalidSyntax` is
`Parser.error` ("Invalid syntax"). -/
inductive ParseErr where
  | invalidSyntax
  | outOfFuel
deriving DecidableEq

/-- `Parser.eat`: consume the lookahead if it is the expected token,
else fail. -/
def eat (expected : Tok) (ts : List Tok) : Except ParseErr (List Tok) :=
  match ts with
  | t :: rest => if t = expected then .ok rest else .error .invalidSyntax
  | [] => .error .invalidSyntax

/-- `Parser.eat(ID)` together with reading `current_token.value`. -/
def eatID (ts : List Tok) : Except ParseErr (String × List Tok) :=
  match ts with
  | .ID s :: rest => .ok (s, rest)
  | _ => .error .invalidSyntax

mutual

/-- `Parser.program`: `PROGRAM variable SEMI block DOT`. -/
def parseProgram : Nat → List Tok → Except ParseErr (Program × List Tok)
  | 0, _ => .error .outOfFuel
  | fuel + 1, ts => do
    let ts ← eat .PROGRAM ts
    let (progName, ts) ← parseVariableName fuel ts
    let ts ← eat .SEMI ts
    let (blk, ts) ← parseBlock fuel ts
    let ts ← eat .DOT ts
    .ok (⟨progName, blk⟩, ts)

/-- `Parser.block`: declarations then compound statement. -/
def parseBlock : Nat → List Tok → Except ParseErr (Block × List Tok)
  | 0, _ => .error .outOfFuel
  | fuel + 1, ts => do
    let (ds, ts) ← parseDeclarations fuel ts
    let (comp, ts) ← parseCompoundStatement fuel ts
    .ok (.mk ds comp, ts)

/-- `Parser.declarations`, outer `while` loop: repeats as long as the
lookahead is `VAR` or `PROCEDURE`. -/
def parseDeclarations : Nat → List Tok → Except ParseErr (List Decl × List Tok)
  | 0, _ => .error .outOfFuel
  | fuel + 1, ts =>
    match ts with
    | t :: _ =>
      if t = .VAR || t = .PROCEDURE then do
        let (ds1, ts) ← parseVarLoop fuel ts
        let (ds2, ts) ← parseProcLoop fuel ts
        let (ds3, ts) ← parseDeclarations fuel ts
        .ok (ds1 ++ ds2 ++ ds3, ts)
      else .ok ([], ts)
    | [] => .ok ([], ts)

/-- `Parser.declarations`, `while self.current_token.type == VAR` loop:
eat `VAR`, then gather `variable_declaration SEMI` groups while the
lookahead is an identifier. -/
def parseVarLoop : Nat → List Tok → Except ParseErr (List Decl × List Tok)
  | 0, _ => .error .outOfFuel
  | fuel + 1, ts =>
    match ts with
    | .VAR :: _ => do
      let ts ← eat .VAR ts
      let (ds, ts) ← parseVarDeclGroups fuel ts
      let (ds', ts) ← parseVarLoop fuel ts
      .ok (ds ++ ds', ts)
    | _ => .ok ([], ts)

/-- `Parser.declarations`, inner `while self.current_token.type == ID` loop:
one `variable_declaration` followed by `SEMI`, repeated. -/
def parseVarDeclGroups : Nat → List Tok → Except ParseErr (List Decl × List Tok)
  | 0, _ => .error .outOfFuel
  | fuel + 1, ts =>
    match ts with
    | .ID _ :: _ => do
      let (ds, ts) ← parseVariableDeclaration fuel ts
      let ts ← eat .SEMI ts
      let (ds', ts) ← parseVarDeclGroups fuel ts
      .ok (ds ++ ds', ts)
    | _ => .ok ([], ts)

/-- `Parser.declarations`, `while self.current_token.type == PROCEDURE`
loop: `PROCEDURE ID SEMI block SEMI`, repeated. -/
def parseProcLoop : Nat → List Tok → Except ParseErr (List Decl × List Tok)
  | 0, _ => .error .outOfFuel
  | fuel + 1, ts =>
    match ts with
    | .PROCEDURE :: _ => do
      let ts ← eat .PROCEDURE ts
      let (procName, ts) ← eatID ts
      let ts ← eat .SEMI ts
      let (blk, ts) ← parseBlock fuel ts
      let ts ← eat .SEMI ts
      let (ds, ts) ← parseProcLoop fuel ts
      .ok (.procedureDecl procName blk :: ds, ts)
    | _ => .ok ([], ts)

/-- `Parser.variable_declaration`: `ID (COMMA ID)* COLON type_spec`,
expanded into one `VarDecl` per listed identifier. -/
def parseVariableDeclaration : Nat → List Tok → Except ParseErr (List Decl × List Tok)
  | 0, _ => .error .outOfFuel
  | fuel + 1, ts => do
    let (n, ts) ← eatID ts
    let (ns, ts) ← parseVarNameLoop fuel ts
    let ts ← eat .COLON ts
    let (tyName, ts) ← parseTypeSpec fuel ts
    .ok ((n :: ns).map (fun vn => .varDecl vn tyName), ts)

/-- `Parser.variable_declaration`, `while COMMA` loop gathering the
remaining identifiers. -/
def parseVarNameLoop : Nat → List Tok → Except ParseErr (List String × List Tok)
  | 0, _ => .error .outOfFuel
  | fuel + 1, ts =>
    match ts with
    | .COMMA :: _ => do
      let ts ← eat .COMMA ts
      let (n, ts) ← eatID ts
      let (ns, ts) ← parseVarNameLoop fuel ts
      .ok (n :: ns, ts)
    | _ => .ok ([], ts)

/-- `Parser.type_spec`: `INTEGER | REAL` (anything else fails inside
`eat(REAL)`). -/
def parseTypeSpec : Nat → List Tok → Except ParseErr (String × List Tok)
  | 0, _ => .error .outOfFuel
  | _ + 1, ts =>
    match ts with
    | .INTEGER :: rest => .ok ("INTEGER", rest)
    | .REAL :: rest => .ok ("REAL", rest)
    | _ => .error .invalidSyntax

/-- `Parser.compound_statement`: `BEGIN statement_list END`. -/
def parseCompoundStatement : Nat → List Tok → Except ParseErr (Stmt × List Tok)
  | 0, _ => .error .outOfFuel
  | fuel + 1, ts => do
    let ts ← eat .BEGIN ts
    let (nodes, ts) ← parseStatementList fuel ts
    let ts ← eat .END ts
    .ok (.compound nodes, ts)

/-- `Parser.statement_list`: a statement, then further statements while the
lookahead is `SEMI`. -/
def parseStatementList : Nat → List Tok → Except ParseErr (List Stmt × List Tok)
  | 0, _ => .error .outOfFuel
  | fuel + 1, ts => do
    let (s, ts) ← parseStatement fuel ts
    let (ss, ts) ← parseStatementListLoop fuel ts
    .ok (s :: ss, ts)

/-- `Parser.statement_list`, `while SEMI` loop. -/
def parseStatementListLoop : Nat → List Tok → Except ParseErr (List Stmt × List Tok)
  | 0, _ => .error .outOfFuel
  | fuel + 1, ts =>
    match ts with
    | .SEMI :: _ => do
      let ts ← eat .SEMI ts
      let (s, ts) ← parseStatement fuel ts
      let (ss, ts) ← parseStatementListLoop fuel ts
      .ok (s :: ss, ts)
    | _ => .ok ([], ts)

/-- `Parser.statement`: compound on `BEGIN`, assignment on `ID`, else the
empty production. -/
def parseStatement : Nat → List Tok → Except ParseErr (Stmt × List Tok)
  | 0, _ => .error .outOfFuel
  | fuel + 1, ts =>
    match ts with
    | .BEGIN :: _ => parseCompoundStatement fuel ts
    | .ID _ :: _ => parseAssignmentStatement fuel ts
    | _ => .ok (.noOp, ts)

/-- `Parser.assignment_statement`: `variable ASSIGN expr`. -/
def parseAssignmentStatement : Nat → List Tok → Except ParseErr (Stmt × List Tok)
  | 0, _ => .error .outOfFuel
  | fuel + 1, ts => do
    let (n, ts) ← parseVariableName fuel ts
    let ts ← eat .ASSIGN ts
    let (e, ts) ← parseExpr fuel ts
    .ok (.assign n e, ts)

/-- `Parser.variable`: a single `ID`, yielding the `Var` node's name. -/
def parseVariableName : Nat → List Tok → Except ParseErr (String × List Tok)
  | 0, _ => .error .outOfFuel
  | _ + 1, ts => eatID ts

/-- `Parser.expr`: `term ((PLUS|MINUS) term)*`, left-associated. -/
def parseExpr : Nat → List Tok → Except ParseErr (Expr × List Tok)
  | 0, _ => .error .outOfFuel
  | fuel + 1, ts => do
    let (node, ts) ← parseTerm fuel ts
    parseExprLoop fuel node ts

/-- `Parser.expr`, `while (PLUS|MINUS)` loop. -/
def parseExprLoop : Nat → Expr → List Tok → Except ParseErr (Expr × List Tok)
  | 0, _, _ => .error .outOfFuel
  | fuel + 1, node, ts =>
    match ts with
    | .PLUS :: rest => do
      let (r, ts) ← parseTerm fuel rest
      parseExprLoop fuel (.binOp node .plus r) ts
    | .MINUS :: rest => do
      let (r, ts) ← parseTerm fuel rest
      parseExprLoop fuel (.binOp node .minus r) ts
    | _ => .ok (node, ts)

/-- `Parser.term`: `factor ((MUL|INTEGER_DIV|FLOAT_DIV) factor)*`. -/
def parseTerm : Nat → List Tok → Except ParseErr (Expr × List Tok)
  | 0, _ => .error .outOfFuel
  | fuel + 1, ts => do
    let (node, ts) ← parseFactor fuel ts
    parseTermLoop fuel node ts

/-- `Parser.term`, `while (MUL|INTEGER_DIV|FLOAT_DIV)` loop. -/
def parseTermLoop : Nat → Expr → List Tok → Except ParseErr (Expr × List Tok)
  | 0, _, _ => .error .outOfFuel
  | fuel + 1, node, ts =>
    match ts with
    | .MUL :: rest => do
      let (r, ts) ← parseFactor fuel rest
      parseTermLoop fuel (.binOp node .mul r) ts
    | .INTEGER_DIV :: rest => do
      let (r, ts) ← parseFactor fuel rest
      parseTermLoop fuel (.binOp node .integerDiv r) ts
    | .FLOAT_DIV :: rest => do
      let (r, ts) ← parseFactor fuel rest
      parseTermLoop fuel (.binOp node .floatDiv r) ts
    | _ => .ok (node, ts)

/-- `Parser.factor`: unary `PLUS`/`MINUS`, numeric constants, a
parenthesised `expr`, or a variable. -/
def parseFactor : Nat → List Tok → Except ParseErr (Expr × List Tok)
  | 0, _ => .error .outOfFuel
  | fuel + 1, ts =>
    match ts with
    | .PLUS :: rest => do
      let (e, ts) ← parseFactor fuel rest
      .ok (.unaryOp .plus e, ts)
    | .MINUS :: rest => do
      let (e, ts) ← parseFactor fuel rest
      .ok (.unaryOp .minus e, ts)
    | .INTEGER_CONST i :: rest => .ok (.num (.int i), rest)
    | .REAL_CONST q :: rest => .ok (.num (.real q), rest)
    | .LPAREN :: rest => do
      let (e, ts) ← parseExpr fuel rest
      let ts ← eat .RPAREN ts
      .ok (e, ts)
    | _ => do
      let (n, ts) ← parseVariableName fuel ts
      .ok (.var n, ts)

end

/-- `Parser.parse`: parse a `program`, then require the lookahead to be
`EOF`.  The fuel is an upper bound on recursion depth; four units per
token plus slack always suffices. -/
def parse (ts : List Tok) : Except ParseErr Program := do
  let (p, ts') ← parseProgram (4 * ts.length + 16) ts
  match ts' with
  | .EOF :: _ => .ok p
  | _ => .error .invalidSyntax

/-- Pipeline errors for lexing plus token consumption. -/
inductive PipeErr where
  | lexErr (e : LexErr)
  | parseErr (e : ParseErr)
deriving DecidableEq

/-- `Lexer(text)` then `Parser(lexer).parse()`. -/
def parseSource (text : String) : Except PipeErr Program := do
  let ts ← (tokenize text).mapError .lexErr
  (parse ts).mapError .parseErr

/-! ### Symbol table and semantic pass (`SymbolTableBuilder`) -/

/-- `Symbol` hierarchy: `BuiltinTypeSymbol` and `VarSymbol` (whose `type`
field holds the looked-up type symbol, possibly `None`). -/
inductive Symbol where
  | builtinType (name : String)
  | varSymbol (name : String) (type : Option Symbol)

mutual

/-- Decidable equality of symbols (not derivable automatically because of
the nested `Option`). -/
def Symbol.decEq : (a b : Symbol) → Decidable (a = b)
  | .builtinType n, .builtinType m =>
    if h : n = m then .isTrue (by rw [h]) else .isFalse (fun hh => h (by cases hh; rfl))
  | .builtinType _, .varSymbol _ _ => .isFalse nofun
  | .varSymbol _ _, .builtinType _ => .isFalse nofun
  | .varSymbol n t, .varSymbol m u =>
    if h : n = m then
      match Symbol.decEqOpt t u with
      | .isTrue h2 => .isTrue (by rw [h, h2])
      | .isFalse h2 => .isFalse (fun hh => h2 (by cases hh; rfl))
    else .isFalse (fun hh => h (by cases hh; rfl))

/-- Decidable equality of optional symbols. -/
def Symbol.decEqOpt : (a b : Option Symbol) → Decidable (a = b)
  | none, none => .isTrue rfl
  | none, some _ => .isFalse nofun
  | some _, none => .isFalse nofun
  | some x, some y =>
    match Symbol.decEq x y with
    | .isTrue h => .isTrue (by rw [h])
    | .isFalse h => .isFalse (fun hh => h (by cases hh; rfl))

end

instance : DecidableEq Symbol := Symbol.decEq

/-- `symbol.name`. -/
def Symbol.name : Symbol → String
  | .builtinType n => n
  | .varSymbol n _ => n

/-- The `_symbols` dict of `SymbolTable`: insertion-ordered association
list with dict update semantics. -/
abbrev SymTab := List (String × Symbol)

/-- Dict assignment `self._symbols[symbol.name] = symbol`. -/
def dictSet (m : List (String × Symbol)) (k : String) (v : Symbol) :
    List (String × Symbol) :=
  match m with
  | [] => [(k, v)]
  | (k', v') :: rest => if k' = k then (k, v) :: rest else (k', v') :: dictSet rest k v

/-- `SymbolTable.define`. -/
def SymTab.define (tab : SymTab) (s : Symbol) : SymTab :=
  dictSet tab s.name s

/-- `SymbolTable.lookup` (`dict.get`, `None` when absent). -/
def SymTab.lookup : SymTab → String → Option Symbol
  | [], _ => none
  | (k, v) :: rest, n => if k = n then some v else SymTab.lookup rest n

/-- `SymbolTable.__init__` with `_init_builtins`: INTEGER and REAL are
pre-registered. -/
def initSymTab : SymTab :=
  (SymTab.define (SymTab.define [] (.builtinType "INTEGER")) (.builtinType "REAL"))

/-- Failures of the semantic pass.  `duplicateIdentifier` is the
"Duplicate identifier" exception of `visit_VarDecl`; `symbolNotFound` the
"Symbol (identifier) not found" exception of `visit_Assign`;
`nameNotFound` the `NameError` of `visit_Var`. -/
inductive SemErr where
  | duplicateIdentifier (n : String)
  | symbolNotFound (n : String)
  | nameNotFound (n : String)
deriving DecidableEq

/-- `SymbolTableBuilder.visit_VarDecl`: look up the type, fail if the
variable name is already defined, else define the new `VarSymbol`.  The
error carries the table as it stands when the exception is raised (the
builder's `symtab` attribute remains observable afterwards). -/
def stbVarDecl (tab : SymTab) (varName typeName : String) :
    Except (SemErr × SymTab) SymTab :=
  let typeSymbol := tab.lookup typeName
  match tab.lookup varName with
  | some _ => .error (.duplicateIdentifier varName, tab)
  | none => .ok (tab.define (.varSymbol varName typeSymbol))

/-- `SymbolTableBuilder` dispatch over a declaration:
`visit_ProcedureDecl` is `pass` (the nested block is not checked). -/
def stbDecl (tab : SymTab) : Decl → Except (SemErr × SymTab) SymTab
  | .varDecl vn tn => stbVarDecl tab vn tn
  | .procedureDecl _ _ => .ok tab

/-- Visit each declaration of a block in order. -/
def stbDecls (tab : SymTab) : List Decl → Except (SemErr × SymTab) SymTab
  | [] => .ok tab
  | d :: rest => do stbDecls (← stbDecl tab d) rest

/-- `SymbolTableBuilder.visit_BinOp` / `visit_UnaryOp` / `visit_Num` /
`visit_Var`: recurse through expressions, failing on an unresolvable
name. -/
def stbExpr (tab : SymTab) : Expr → Except (SemErr × SymTab) SymTab
  | .binOp l _ r => do stbExpr (← stbExpr tab l) r
  | .unaryOp _ e => stbExpr tab e
  | .num _ => .ok tab
  | .var n =>
    match tab.lookup n with
    | none => .error (.nameNotFound n, tab)
    | some _ => .ok tab

mutual

/-- `SymbolTableBuilder.visit_Compound` / `visit_Assign` / `visit_NoOp`. -/
def stbStmt (tab : SymTab) : Stmt → Except (SemErr × SymTab) SymTab
  | .compound cs => stbStmts tab cs
  | .assign n e =>
    match tab.lookup n with
    | none => .error (.symbolNotFound n, tab)
    | some _ => stbExpr tab e
  | .noOp => .ok tab

/-- Visit each child of a compound in order. -/
def stbStmts (tab : SymTab) : List Stmt → Except (SemErr × SymTab) SymTab
  | [] => .ok tab
  | s :: rest => do stbStmts (← stbStmt tab s) rest

end

/-- `SymbolTableBuilder.visit_Program` / `visit_Block`: declarations in
order, then the compound statement. -/
def stbProgram (tab : SymTab) (p : Program) : Except (SemErr × SymTab) SymTab := do
  stbStmt (← stbDecls tab p.block.declarations) p.block.compound

/-- Run the semantic pass from a freshly constructed `SymbolTableBuilder`. -/
def semCheck (p : Program) : Except (SemErr × SymTab) SymTab :=
  stbProgram initSymTab p

/-! ### Evaluator (`Interpreter`) -/

/-- Runtime failures: the `NameError` of `Interpreter.visit_Var` and
Python's `ZeroDivisionError` raised by `//` and `/`. -/
inductive RunErr where
  | undefinedVariable (n : String)
  | zeroDivision
deriving DecidableEq

/-- The `GLOBAL_SCOPE` dict: variable name to current value. -/
abbrev Store := List (String × Value)

/-- Dict assignment `self.GLOBAL_SCOPE[var_name] = value`. -/
def Store.set (σ : Store) (k : String) (v : Value) : Store :=
  match σ with
  | [] => [(k, v)]
  | (k', v') :: rest => if k' = k then (k, v) :: rest else (k', v') :: Store.set rest k v

/-- `GLOBAL_SCOPE.get(var_name)`. -/
def Store.get : Store → String → Option Value
  | [], _ => none
  | (k, v) :: rest, n => if k = n then some v else Store.get rest n

/-- `float(v)`: the numeric value as a real (exact-rational model of the
Python float). -/
def Value.toRat : Value → ℚ
  | .int i => (i : ℚ)
  | .real q => q

/-- Python `-v` on a numeric value. -/
def Value.neg : Value → Value
  | .int i => .int (-i)
  | .real q => .real (-q)

/-- Python `+`/`-`/`*` on numbers: int when both operands are ints, float
otherwise. -/
def arith (f : Int → Int → Int) (g : ℚ → ℚ → ℚ) : Value → Value → Value
  | .int a, .int b => .int (f a b)
  | a, b => .real (g a.toRat b.toRat)

/-- `Interpreter.visit_BinOp`, applied to the two already-evaluated
operands.  `//` floors (`Int.fdiv`; on floats, real floor), raising
`ZeroDivisionError` on a zero right operand; `/` coerces both sides with
`float(...)` and divides. -/
def evalBinOp (op : Op) (a b : Value) : Except RunErr Value :=
  match op with
  | .plus => .ok (arith (· + ·) (· + ·) a b)
  | .minus => .ok (arith (· - ·) (· - ·) a b)
  | .mul => .ok (arith (· * ·) (· * ·) a b)
  | .integerDiv =>
    match a, b with
    | .int x, .int y =>
      if y = 0 then .error .zeroDivision else .ok (.int (Int.fdiv x y))
    | _, _ =>
      if b.toRat = 0 then .error .zeroDivision
      else .ok (.real ((⌊a.toRat / b.toRat⌋ : ℤ) : ℚ))
  | .floatDiv =>
    if b.toRat = 0 then .error .zeroDivision
    else .ok (.real (a.toRat / b.toRat))

/-- `Interpreter.visit_Var`: read `GLOBAL_SCOPE`, raising `NameError` when
the name was never assigned. -/
def visit_Var (σ : Store) (n : String) : Except RunErr Value :=
  match σ.get n with
  | none => .error (.undefinedVariable n)
  | some v => .ok v

/-- `Interpreter.visit_UnaryOp` applied to the evaluated operand. -/
def evalUnaryOp (op : UOp) (v : Value) : Value :=
  match op with
  | .plus => v
  | .minus => v.neg

/-- Expression evaluation (`visit_BinOp`/`visit_UnaryOp`/`visit_Num`/
`visit_Var`): left operand before right operand. -/
def evalExpr (σ : Store) : Expr → Except RunErr Value
  | .binOp l op r => do
    let a ← evalExpr σ l
    let b ← evalExpr σ r
    evalBinOp op a b
  | .unaryOp op e => do
    let v ← evalExpr σ e
    .ok (evalUnaryOp op v)
  | .num v => .ok v
  | .var n => visit_Var σ n

mutual

/-- `Interpreter.visit_Compound` / `visit_Assign` / `visit_NoOp`:
statements thread the variable store. -/
def execStmt (σ : Store) : Stmt → Except RunErr Store
  | .compound cs => execStmts σ cs
  | .assign n e => do
    let v ← evalExpr σ e
    .ok (σ.set n v)
  | .noOp => .ok σ

/-- Children of a compound, in order. -/
def execStmts (σ : Store) : List Stmt → Except RunErr Store
  | [] => .ok σ
  | s :: rest => do execStmts (← execStmt σ s) rest

end

/-- `Interpreter.visit_VarDecl` and `visit_ProcedureDecl` are `pass`:
declarations have no runtime effect. -/
def execDecl (σ : Store) (_ : Decl) : Store := σ

/-- `Interpreter.visit_Program` / `visit_Block` starting from the store
`σ`.  `σ` is the content of the class attribute `GLOBAL_SCOPE` when
`interpret` is called: the dict is owned by the *class*, not the
instance, so it is whatever previous runs left in it. -/
def interpretRun (σ : Store) (p : Program) : Except RunErr Store :=
  execStmt (p.block.declarations.foldl execDecl σ) p.block.compound

/-- The value the class attribute `GLOBAL_SCOPE = {}` receives when the
`Interpreter` class object is created (once per process, not per
instance). -/
def GLOBAL_SCOPE_init : Store := []

/-- Two back-to-back runs with separately constructed `Interpreter`
instances: because `GLOBAL_SCOPE` is a class attribute, the second run
starts from the store the first run left behind, not from a fresh dict. -/
def twoRuns (p1 p2 : Program) : Except RunErr Store := do
  interpretRun (← interpretRun GLOBAL_SCOPE_init p1) p2

/-! ### Whole pipeline (`main`, first invocation in a fresh process) -/

/-- Any stage's failure. -/
inductive RunFail where
  | lexErr (e : LexErr)
  | parseErr (e : ParseErr)
  | semErr (e : SemErr)
  | runErr (e : RunErr)
deriving DecidableEq

/-- `main`: lex, parse, build the symbol table, interpret; yields the
symbol table and the final `GLOBAL_SCOPE`. -/
def runProgram (text : String) : Except RunFail (SymTab × Store) := do
  let ts ← (tokenize text).mapError .lexErr
  let p ← (parse ts).mapError .parseErr
  let tab ← (semCheck p).mapError (fun e => .semErr e.1)
  let σ ← (interpretRun GLOBAL_SCOPE_init p).mapError .runErr
  .ok (tab, σ)

/-! ### Static observations about programs -/

mutual

/-- The names that occur as `Assign` targets anywhere in a statement. -/
def Stmt.assignTargets : Stmt → List String
  | .compound cs => assignTargetsList cs
  | .assign n _ => [n]
  | .noOp => []

/-- `Assign` targets of a statement list. -/
def assignTargetsList : List Stmt → List String
  | [] => []
  | s :: rest => s.assignTargets ++ assignTargetsList rest

end

/-- The `Assign` targets the evaluator can ever execute: those of the main
compound statement (declarations are runtime no-ops and procedure bodies
are never invoked). -/
def Program.assignTargets (p : Program) : List String :=
  p.block.compound.assignTargets

/-- The variable names declared by the program's `VarDecl` nodes. -/
def declaredVarNames (p : Program) : List String :=
  p.block.declarations.filterMap fun d =>
    match d with
    | .varDecl n _ => some n
    | .procedureDecl _ _ => none

/-! ### Basic store lemmas -/

theorem Store.get_set (σ : Store) (k n : String) (v : Value) :
    (σ.set k v).get n = if n = k then some v else σ.get n := by
  induction σ with
  | nil =>
    simp only [Store.set, Store.get]
    by_cases h : n = k
    · simp [h]
    · rw [if_neg (mt Eq.symm h), if_neg h]
  | cons hd tl ih =>
    obtain ⟨k', v'⟩ := hd
    by_cases hk : k' = k
    · subst hk
      simp only [Store.set, if_pos rfl, Store.get]
      by_cases hn : k' = n
      · subst hn; simp
      · rw [if_neg hn, if_neg (mt Eq.symm hn), if_neg hn]
    · simp only [Store.set, if_neg hk, Store.get, ih]
      by_cases hn : k' = n
      · subst hn
        rw [if_pos rfl, if_neg hk, if_pos rfl]
      · rw [if_neg hn, if_neg hn]

/-- Declarations do not touch the store (`visit_VarDecl` and
`visit_ProcedureDecl` are `pass`). -/
theorem foldl_execDecl (ds : List Decl) (σ : Store) :
    ds.foldl execDecl σ = σ := by
  induction ds with
  | nil => rfl
  | cons d rest ih => simpa [execDecl] using ih

mutual

/-- Executing a statement none of whose `Assign` targets is `n` leaves
the binding of `n` unchanged. -/
theorem execStmt_pres (s : Stmt) (σ σ' : Store) (n : String)
    (hn : n ∉ s.assignTargets) (h : execStmt σ s = .ok σ') :
    σ'.get n = σ.get n := by
  cases s with
  | compound cs =>
    rw [execStmt] at h
    exact execStmts_pres cs σ σ' n (by simpa [Stmt.assignTargets] using hn) h
  | assign m e =>
    have hnm : n ≠ m := by simpa [Stmt.assignTargets] using hn
    rw [execStmt] at h
    cases hv : evalExpr σ e with
    | error e' => rw [hv] at h; exact absurd h nofun
    | ok v =>
      rw [hv] at h
      have hσ : σ' = σ.set m v := (Except.ok.inj h).symm
      rw [hσ, Store.get_set, if_neg hnm]
  | noOp =>
    rw [execStmt] at h
    rw [(Except.ok.inj h).symm]

/-- Executing a statement list none of whose `Assign` targets is `n`
leaves the binding of `n` unchanged. -/
theorem execStmts_pres (l : List Stmt) (σ σ' : Store) (n : String)
    (hn : n ∉ assignTargetsList l) (h : execStmts σ l = .ok σ') :
    σ'.get n = σ.get n := by
  cases l with
  | nil =>
    rw [execStmts] at h
    rw [(Except.ok.inj h).symm]
  | cons s rest =>
    rw [execStmts] at h
    rw [assignTargetsList, List.mem_append] at hn
    push_neg at hn
    cases h1 : execStmt σ s with
    | error e' => rw [h1] at h; exact absurd h nofun
    | ok σ1 =>
      rw [h1] at h
      rw [execStmts_pres rest σ1 σ' n hn.2 h, execStmt_pres s σ σ1 n hn.1 h1]

end

/-! ### Lexer lemmas -/

/-- A comment body with no closing brace runs the scan off the end of the
text. -/
theorem skip_comment_unterminated (l : List Char) (h : '\x7d' ∉ l) :
    skip_comment l = .error .unterminatedComment := by
  induction l with
  | nil => rfl
  | cons c rest ih =>
    have h1 : ¬(c = '\x7d') := fun hh => h (by simp [hh])
    have h2 : '\x7d' ∉ rest := fun hh => h (List.mem_cons_of_mem c hh)
    rw [skip_comment, if_neg h1]
    exact ih h2

/-! ### Floor-division lemmas -/

/-- `Int.fdiv` is invariant under negating both arguments (by the case
shape of its definition). -/
theorem fdiv_neg_neg (a b : Int) : Int.fdiv (-a) (-b) = Int.fdiv a b := by
  cases a with
  | ofNat m =>
    cases m with
    | zero =>
      cases b with
      | ofNat n => cases n <;> rfl
      | negSucc n => rfl
    | succ m =>
      cases b with
      | ofNat n =>
        cases n with
        | zero =>
          show Int.fdiv (Int.negSucc m) 0 = Int.fdiv (Int.ofNat (m + 1)) 0
          simp [Int.fdiv]
        | succ n => rfl
      | negSucc n => rfl
  | negSucc m =>
    cases b with
    | ofNat n =>
      cases n with
      | zero =>
        show Int.fdiv (Int.ofNat (m + 1)) 0 = Int.fdiv (Int.negSucc m) 0
        simp [Int.fdiv]
      | succ n => rfl
    | negSucc n => rfl

/-- For a nonzero divisor, `Int.fdiv` is exactly the floor of the exact
quotient: division rounded toward negative infinity (Python `//`). -/
theorem fdiv_eq_floor (a b : Int) (hb : b ≠ 0) :
    Int.fdiv a b = ⌊(a : ℚ) / (b : ℚ)⌋ := by
  rcases lt_or_gt_of_ne hb with hneg | hpos
  · have h1 : (0 : ℤ) ≤ -b := by omega
    have htn : (((-b).toNat : ℤ)) = -b := Int.toNat_of_nonneg h1
    have htnq : (((-b).toNat : ℕ) : ℚ) = ((-b : ℤ) : ℚ) := by
      exact_mod_cast congrArg (fun z : ℤ => (z : ℚ)) htn
    have hq : (a : ℚ) / (b : ℚ) = ((-a : ℤ) : ℚ) / (((-b).toNat : ℕ) : ℚ) := by
      rw [htnq]
      push_cast
      rw [neg_div_neg_eq]
    rw [← fdiv_neg_neg a b, Int.fdiv_eq_ediv _ h1, hq,
      Rat.floor_intCast_div_natCast, htn]
  · have h1 : (0 : ℤ) ≤ b := le_of_lt hpos
    have htn : ((b.toNat : ℤ)) = b := Int.toNat_of_nonneg h1
    have htnq : ((b.toNat : ℕ) : ℚ) = ((b : ℤ) : ℚ) := by
      exact_mod_cast congrArg (fun z : ℤ => (z : ℚ)) htn
    have hq : (a : ℚ) / (b : ℚ) = ((a : ℤ) : ℚ) / ((b.toNat : ℕ) : ℚ) := by
      rw [htnq]
    rw [Int.fdiv_eq_ediv _ h1, hq, Rat.floor_intCast_div_natCast, htn]

/-! ### Unary-operator chains (grammar rule `factor : (PLUS|MINUS) factor | ...`) -/

/-- The token a unary operator is written as. -/
def uopTok : UOp → Tok
  | .plus => .PLUS
  | .minus => .MINUS

/-- The token carrying a numeric literal. -/
def numTok : Value → Tok
  | .int i => .INTEGER_CONST i
  | .real q => .REAL_CONST q

/-- Nested `UnaryOp` nodes: the chain `factor` builds for a prefix of unary
operators. -/
def chainUnary : List UOp → Expr → Expr
  | [], e => e
  | u :: us, e => .unaryOp u (chainUnary us e)

/-- Number of unary `MINUS` operators in a prefix chain. -/
def countMinus : List UOp → Nat
  | [] => 0
  | .minus :: us => countMinus us + 1
  | .plus :: us => countMinus us

/-- `factor` parses any prefix of unary-operator tokens before a numeric
literal into the corresponding nest of `UnaryOp` nodes. -/
theorem parseFactor_chain (us : List UOp) (v : Value) (rest : List Tok) :
    ∀ fuel, us.length < fuel →
      parseFactor fuel (us.map uopTok ++ numTok v :: rest) =
        .ok (chainUnary us (.num v), rest) := by
  induction us with
  | nil =>
    intro fuel hf
    match fuel, hf with
    | fuel + 1, _ => cases v <;> rfl
  | cons u us ih =>
    intro fuel hf
    match fuel, hf with
    | fuel + 1, hf =>
      have hlen : us.length < fuel := by
        simp only [List.length_cons] at hf
        omega
      have ih' := ih fuel hlen
      cases u with
      | plus =>
        have h1 : parseFactor (fuel + 1)
            (List.map uopTok (.plus :: us) ++ numTok v :: rest) =
            (do
              let (e, ts2) ← parseFactor fuel (List.map uopTok us ++ numTok v :: rest)
              .ok (.unaryOp .plus e, ts2)) := rfl
        rw [h1, ih']
        rfl
      | minus =>
        have h1 : parseFactor (fuel + 1)
            (List.map uopTok (.minus :: us) ++ numTok v :: rest) =
            (do
              let (e, ts2) ← parseFactor fuel (List.map uopTok us ++ numTok v :: rest)
              .ok (.unaryOp .minus e, ts2)) := rfl
        rw [h1, ih']
        rfl

/-- Evaluating a nest of unary operators over a literal: the result is the
literal, negated when the number of `MINUS` operators is odd. -/
theorem evalExpr_chain (us : List UOp) (v : Value) (σ : Store) :
    evalExpr σ (chainUnary us (.num v)) =
      .ok (if countMinus us % 2 = 0 then v else v.neg) := by
  induction us with
  | nil => simp [chainUnary, countMinus, evalExpr]
  | cons u us ih =>
    cases u with
    | plus =>
      rw [chainUnary, evalExpr, ih]
      rfl
    | minus =>
      rw [chainUnary, evalExpr, ih]
      by_cases h : countMinus us % 2 = 0
      · have h2 : ¬((countMinus us + 1) % 2 = 0) := by omega
        show Except.ok (Value.neg (if countMinus us % 2 = 0 then v else v.neg)) =
          .ok (if (countMinus us + 1) % 2 = 0 then v else v.neg)
        rw [if_pos h, if_neg h2]
      · have h2 : (countMinus us + 1) % 2 = 0 := by omega
        show Except.ok (Value.neg (if countMinus us % 2 = 0 then v else v.neg)) =
          .ok (if (countMinus us + 1) % 2 = 0 then v else v.neg)
        rw [if_neg h, if_pos h2]
        cases v <;> simp [Value.neg]

/-! ### Claim theorems -/

/-- C1: For the source text
`PROGRAM Test; VAR a, b : INTEGER; BEGIN a := 10; b := a + 5 * 2; END.`,
the full pipeline (lex, parse, semantic check, evaluate) succeeds; the
final global variable store maps A to 10 and B to 20, and the symbol
table contains variable symbols A and B bound to type INTEGER in
addition to the built-in type symbols INTEGER and REAL. -/
theorem c1_concrete_scenario :
    runProgram "PROGRAM Test; VAR a, b : INTEGER; BEGIN a := 10; b := a + 5 * 2; END." =
      .ok ([("INTEGER", .builtinType "INTEGER"), ("REAL", .builtinType "REAL"),
            ("A", .varSymbol "A" (some (.builtinType "INTEGER"))),
            ("B", .varSymbol "B" (some (.builtinType "INTEGER")))],
           [("A", .int 10), ("B", .int 20)]) ∧
    Store.get [("A", Value.int 10), ("B", Value.int 20)] "A" = some (.int 10) ∧
    Store.get [("A", Value.int 10), ("B", Value.int 20)] "B" = some (.int 20) ∧
    SymTab.lookup [("INTEGER", Symbol.builtinType "INTEGER"), ("REAL", Symbol.builtinType "REAL"),
      ("A", Symbol.varSymbol "A" (some (.builtinType "INTEGER"))),
      ("B", Symbol.varSymbol "B" (some (.builtinType "INTEGER")))] "A" =
        some (.varSymbol "A" (some (.builtinType "INTEGER"))) ∧
    SymTab.lookup [("INTEGER", Symbol.builtinType "INTEGER"), ("REAL", Symbol.builtinType "REAL"),
      ("A", Symbol.varSymbol "A" (some (.builtinType "INTEGER"))),
      ("B", Symbol.varSymbol "B" (some (.builtinType "INTEGER")))] "B" =
        some (.varSymbol "B" (some (.builtinType "INTEGER"))) ∧
    SymTab.lookup [("INTEGER", Symbol.builtinType "INTEGER"), ("REAL", Symbol.builtinType "REAL"),
      ("A", Symbol.varSymbol "A" (some (.builtinType "INTEGER"))),
      ("B", Symbol.varSymbol "B" (some (.builtinType "INTEGER")))] "INTEGER" =
        some (.builtinType "INTEGER") ∧
    SymTab.lookup [("INTEGER", Symbol.builtinType "INTEGER"), ("REAL", Symbol.builtinType "REAL"),
      ("A", Symbol.varSymbol "A" (some (.builtinType "INTEGER"))),
      ("B", Symbol.varSymbol "B" (some (.builtinType "INTEGER")))] "REAL" =
        some (.builtinType "REAL") :=
  ⟨rfl, rfl, rfl, rfl, rfl, rfl, rfl⟩

/-- C2 (code behaviour at the claimed failing input): the grammar in both
the spec and the `declarations` docstring demands at least one
`var_declaration SEMI` group after `VAR`, but the implementation's inner
`while current_token.type == ID` loop accepts zero groups, so
`PROGRAM P; VAR BEGIN x := 1 END.` parses successfully into a `Program`
with an empty declaration list instead of failing with InvalidSyntax. -/
theorem c2_var_empty_declarations_accepted :
    parseSource "PROGRAM P; VAR BEGIN x := 1 END." =
      .ok ⟨"P", .mk [] (.compound [.assign "X" (.num (.int 1))])⟩ :=
  rfl

/-- C3: If a brace comment is opened and the closing brace never occurs
before the end of the source text, the Lexer fails with the
UnterminatedComment error (in the Python source, the scan in
`skip_comment` runs past the end of the text and the `IndexError` from
`advance` aborts lexing). -/
theorem c3_unterminated_comment (rest : List Char) (fuel : Nat)
    (h : '\x7d' ∉ rest) :
    get_next_token (fuel + 1) ('\x7b' :: rest) = .error .unterminatedComment := by
  have h1 : get_next_token (fuel + 1) ('\x7b' :: rest) =
      (match skip_comment rest with
       | .error e => .error e
       | .ok rest2 => get_next_token fuel rest2) := rfl
  rw [h1, skip_comment_unterminated rest h]

/-- C3 witness: the comment opened before `abc` is never closed. -/
theorem c3_unterminated_comment_witness :
    ('\x7d' ∉ "abc".toList) ∧
      get_next_token 1 ('\x7b' :: "abc".toList) = .error .unterminatedComment :=
  ⟨by decide, c3_unterminated_comment "abc".toList 0 (by decide)⟩

/-- First run's program for C4: assigns `A := 1`. -/
def p4a : Program :=
  ⟨"P1", .mk [.varDecl "A" "INTEGER"] (.compound [.assign "A" (.num (.int 1))])⟩

/-- Second run's program for C4: declares A and B but assigns only
`B := A`, so `A` is read without that run ever assigning it. -/
def p4b : Program :=
  ⟨"P2", .mk [.varDecl "A" "INTEGER", .varDecl "B" "INTEGER"]
    (.compound [.assign "B" (.var "A")])⟩

/-- C4 counterexample: the claim ("two evaluation runs performed with
separately constructed Interpreter instances share no mutable variable
store: each run's store is created empty at interpreter start, and no
binding created by the first run is observable in the second run's store
before or during the second run") is false on the code.  `GLOBAL_SCOPE`
is a class attribute, so the store the second run starts from is exactly
the first run's final store `[("A", 1)]`, which is not empty, and the
second run observes the first run's binding of A: evaluating `B := A`
succeeds with B = 1 in the back-to-back run, whereas the same program
run from an empty store fails with UndefinedVariable for A. -/
theorem c4_counterexample :
    interpretRun GLOBAL_SCOPE_init p4a = .ok [("A", Value.int 1)] ∧
    ([("A", Value.int 1)] : Store) ≠ GLOBAL_SCOPE_init ∧
    twoRuns p4a p4b = .ok [("A", Value.int 1), ("B", Value.int 1)] ∧
    interpretRun GLOBAL_SCOPE_init p4b = .error (.undefinedVariable "A") :=
  ⟨rfl, by decide, rfl, rfl⟩

/-- C4 (amended): two evaluation runs performed with separately
constructed Interpreter instances share the single class-level mutable
store `GLOBAL_SCOPE`: the store is created empty once, when the class
object is created, not at each interpreter start, the second run begins
from the store the first run left behind, and every binding created by
the first run whose name the second run never assigns is still
observable in the second run's final store. -/
theorem c4_shared_class_store (p1 p2 : Program) (σ1 σ2 : Store)
    (n : String) (v : Value)
    (h1 : interpretRun GLOBAL_SCOPE_init p1 = .ok σ1)
    (h2 : twoRuns p1 p2 = .ok σ2)
    (hv : σ1.get n = some v)
    (ht : n ∉ p2.assignTargets) :
    σ2.get n = some v := by
  rw [twoRuns, h1] at h2
  have h2' : interpretRun σ1 p2 = .ok σ2 := h2
  rw [interpretRun, foldl_execDecl] at h2'
  rw [execStmt_pres _ _ _ _ ht h2', hv]

/-- C4 witness: concrete two-run sequence in which run 1's binding of A
survives run 2 (which assigns only B) and is observable in its final
store. -/
theorem c4_shared_class_store_witness :
    Store.get [("A", Value.int 1), ("B", Value.int 1)] "A" = some (Value.int 1) :=
  c4_shared_class_store p4a p4b [("A", Value.int 1)]
    [("A", Value.int 1), ("B", Value.int 1)] "A" (Value.int 1) rfl rfl rfl (by decide)

/-- C5: If the semantic pass visits a `VarDecl` whose variable name is
already defined in the symbol table (bound to symbol `s`), it fails with
DuplicateIdentifier, and the table as it stands after the failure — the
builder's `symtab`, carried here inside the error — is the unmutated
input table, which therefore still maps that name to `s`: the failing
second declaration performs no table mutation for that name. -/
theorem c5_duplicate_identifier (tab : SymTab) (n ty : String) (s : Symbol)
    (h : tab.lookup n = some s) :
    stbDecl tab (.varDecl n ty) = .error (.duplicateIdentifier n, tab) ∧
      tab.lookup n = some s := by
  refine ⟨?_, h⟩
  rw [stbDecl, stbVarDecl, h]

/-- The table produced by a first declaration `X : INTEGER` on a fresh
symbol table. -/
def c5tab : SymTab :=
  initSymTab.define (.varSymbol "X" (some (.builtinType "INTEGER")))

/-- C5 witness: after declaring `X : INTEGER`, re-declaring `X : REAL`
fails with DuplicateIdentifier and the table still holds the first
declaration's symbol. -/
theorem c5_duplicate_identifier_witness :
    stbDecl initSymTab (.varDecl "X" "INTEGER") = .ok c5tab ∧
    stbDecl c5tab (.varDecl "X" "REAL") = .error (.duplicateIdentifier "X", c5tab) ∧
    c5tab.lookup "X" = some (.varSymbol "X" (some (.builtinType "INTEGER"))) := by
  have h := c5_duplicate_identifier c5tab "X" "REAL"
    (.varSymbol "X" (some (.builtinType "INTEGER"))) rfl
  exact ⟨rfl, h.1, h.2⟩

/-- C6: For every program that passes the semantic pass, evaluating a
`Var` node whose name has never been the target of an executed `Assign`
fails with UndefinedVariable at evaluation time: declaration alone does
not initialize a variable.  Concretely, for a declared name `n` that is
not an `Assign` target anywhere in the program, (a) execution of the
program's compound statement never changes the binding of `n`, (b) the
run from the initial empty store leaves `n` unbound in the final store,
and (c) evaluating a `Var` node for `n` against any store in which `n`
is unbound fails with UndefinedVariable. -/
theorem c6_declared_unassigned_read_fails (p : Program) (n : String)
    (hsem : ∃ tab, semCheck p = .ok tab)
    (hdecl : n ∈ declaredVarNames p)
    (hna : n ∉ p.assignTargets) :
    (∀ σ σ' : Store, execStmt σ p.block.compound = .ok σ' → σ'.get n = σ.get n) ∧
    (∀ σf : Store, interpretRun GLOBAL_SCOPE_init p = .ok σf → σf.get n = none) ∧
    (∀ σ : Store, σ.get n = none → visit_Var σ n = .error (.undefinedVariable n)) := by
  refine ⟨?_, ?_, ?_⟩
  · intro σ σ' h
    exact execStmt_pres _ _ _ _ hna h
  · intro σf h
    rw [interpretRun, foldl_execDecl] at h
    rw [execStmt_pres _ _ _ _ hna h]
    rfl
  · intro σ h
    rw [visit_Var, h]

/-- C6 witness program: declares A and B, assigns only A. -/
def p6 : Program :=
  ⟨"P", .mk [.varDecl "A" "INTEGER", .varDecl "B" "INTEGER"]
    (.compound [.assign "A" (.num (.int 1))])⟩

/-- C6 witness: `p6` passes the semantic pass, its run leaves the
declared-but-unassigned B unbound, and reading B fails with
UndefinedVariable. -/
theorem c6_declared_unassigned_read_fails_witness :
    Store.get [("A", Value.int 1)] "B" = none ∧
    visit_Var [("A", Value.int 1)] "B" = .error (.undefinedVariable "B") := by
  have h := c6_declared_unassigned_read_fails p6 "B" ⟨_, rfl⟩ (by decide) (by decide)
  exact ⟨h.2.1 [("A", Value.int 1)] rfl,
    h.2.2 [("A", Value.int 1)] (h.2.1 [("A", Value.int 1)] rfl)⟩

/-- C7: For every `BinOp` node with operator INTEGER_DIV whose left and
right operands evaluate to integers `a` and `b` with `b` not zero,
evaluation returns `Int.fdiv a b`, which is the floor of `a` divided by
`b` — the quotient rounded toward negative infinity. -/
theorem c7_integer_div_floor (σ : Store) (l r : Expr) (a b : Int)
    (hl : evalExpr σ l = .ok (.int a)) (hr : evalExpr σ r = .ok (.int b))
    (hb : b ≠ 0) :
    evalExpr σ (.binOp l .integerDiv r) = .ok (.int (Int.fdiv a b)) ∧
      Int.fdiv a b = ⌊(a : ℚ) / (b : ℚ)⌋ := by
  constructor
  · rw [evalExpr]
    simp only [hl, hr]
    show (if b = 0 then (.error .zeroDivision : Except RunErr Value)
          else .ok (.int (Int.fdiv a b))) = .ok (.int (Int.fdiv a b))
    rw [if_neg hb]
  · exact fdiv_eq_floor a b hb

/-- C7 witness: `7 DIV (-2)` evaluates to `-4 = ⌊-3.5⌋`, rounding toward
negative infinity. -/
theorem c7_integer_div_floor_witness :
    evalExpr [] (.binOp (.num (.int 7)) .integerDiv (.num (.int (-2)))) =
      .ok (.int (-4)) ∧
    Int.fdiv 7 (-2) = ⌊(7 : ℚ) / (((-2) : ℤ) : ℚ)⌋ := by
  have h := c7_integer_div_floor [] (.num (.int 7)) (.num (.int (-2))) 7 (-2)
    rfl rfl (by decide)
  refine ⟨?_, h.2⟩
  rw [h.1]
  rfl

/-- C8: For every `BinOp` node with operator FLOAT_DIV whose operands
evaluate to numbers with the right one nonzero, evaluation coerces both
operands to real and returns a real-typed quotient (the `Value.real`
constructor), even when both operands are integer-valued. -/
theorem c8_float_div_real (σ : Store) (l r : Expr) (va vb : Value)
    (hl : evalExpr σ l = .ok va) (hr : evalExpr σ r = .ok vb)
    (hb : vb.toRat ≠ 0) :
    evalExpr σ (.binOp l .floatDiv r) = .ok (.real (va.toRat / vb.toRat)) := by
  rw [evalExpr]
  simp only [hl, hr]
  show (if vb.toRat = 0 then (.error .zeroDivision : Except RunErr Value)
        else .ok (.real (va.toRat / vb.toRat))) = .ok (.real (va.toRat / vb.toRat))
  rw [if_neg hb]

/-- C8 witness: `6 / 2` evaluates to the real 3.0, which is not the
integer value 3. -/
theorem c8_float_div_real_witness :
    evalExpr [] (.binOp (.num (.int 6)) .floatDiv (.num (.int 2))) =
      .ok (.real 3) ∧ Value.real 3 ≠ Value.int 3 := by
  have h := c8_float_div_real [] (.num (.int 6)) (.num (.int 2)) (.int 6) (.int 2)
    rfl rfl (by norm_num [Value.toRat])
  constructor
  · rw [h]
    norm_num [Value.toRat]
  · intro hh
    cases hh

/-- C9: For every numeric literal `v` and every chain of unary MINUS
operators interleaved with any number of unary PLUS operators applied to
`v` as a factor, parsing yields nested `UnaryOp` nodes and evaluation
yields `v` when the number of MINUS operators is even and the negation
of `v` when it is odd (unary PLUS is the identity). -/
theorem c9_unary_chain (us : List UOp) (v : Value) (rest : List Tok)
    (fuel : Nat) (hf : us.length < fuel) :
    parseFactor fuel (us.map uopTok ++ numTok v :: rest) =
      .ok (chainUnary us (.num v), rest) ∧
    ∀ σ : Store, evalExpr σ (chainUnary us (.num v)) =
      .ok (if countMinus us % 2 = 0 then v else v.neg) :=
  ⟨parseFactor_chain us v rest fuel hf, fun σ => evalExpr_chain us v σ⟩

/-- C9 witness: `- + - 5` parses to the nested chain and evaluates to 5
(two MINUS operators; PLUS is the identity). -/
theorem c9_unary_chain_witness :
    parseFactor 4 ([UOp.minus, UOp.plus, UOp.minus].map uopTok ++
        numTok (.int 5) :: []) =
      .ok (chainUnary [UOp.minus, UOp.plus, UOp.minus] (.num (.int 5)), []) ∧
    evalExpr [] (chainUnary [UOp.minus, UOp.plus, UOp.minus] (.num (.int 5))) =
      .ok (.int 5) := by
  have h := c9_unary_chain [UOp.minus, UOp.plus, UOp.minus] (.int 5) [] 4 (by decide)
  exact ⟨h.1, h.2 []⟩

/-- C10: The empty source string is outside the Lexer's domain:
constructing a Lexer on the empty string unconditionally reads the
character at position 0 and fails with the out-of-range access before
any token, including EOF, can be produced. -/
theorem c10_empty_source_crash :
    lexerInit "".toList = .error .indexOutOfRange ∧
    tokenize "" = .error .indexOutOfRange :=
  ⟨rfl, rfl⟩

end PascalInterp
